import Mathlib

/-!
Verification of the Smart-comms backend's schedule conflict detection and
notification fan-out logic.

The JavaScript source is shallowly embedded: HH:MM wall-clock times (zero
padded, minute resolution) are embedded as minutes-since-midnight naturals,
days of week as naturals 0..6, record ids as naturals, and the Prisma
tables as Lean lists.  Each controller function is translated check by
check, preserving the order of the early returns in the source.
-/

namespace SmartComms

/-- The three-clause Prisma `OR` used by `createSchedule` (and, with the
self-exclusion added, by `updateSchedule`) to detect a conflicting existing
slot.  Arguments: candidate start/end, existing slot start/end.  Clause 1:
existing.startTime <= candidate.startTime AND existing.endTime >
candidate.startTime; clause 2: existing.startTime < candidate.endTime AND
existing.endTime >= candidate.endTime; clause 3: existing.startTime >=
candidate.startTime AND existing.endTime <= candidate.endTime. -/
def scheduleConflictQuery (candStart candEnd exStart exEnd : Nat) : Bool :=
  (decide (exStart ≤ candStart) && decide (exEnd > candStart)) ||
  (decide (exStart < candEnd) && decide (exEnd ≥ candEnd)) ||
  (decide (exStart ≥ candStart) && decide (exEnd ≤ candEnd))

/-- The overlap test in `checkAvailability`'s schedule filter: a venue slot
conflicts with the queried interval when
(startTime >= schedule.startTime AND startTime < schedule.endTime) OR
(endTime > schedule.startTime AND endTime <= schedule.endTime) OR
(startTime <= schedule.startTime AND endTime >= schedule.endTime). -/
def availabilityOverlap (qStart qEnd sStart sEnd : Nat) : Bool :=
  (decide (qStart ≥ sStart) && decide (qStart < sEnd)) ||
  (decide (qEnd > sStart) && decide (qEnd ≤ sEnd)) ||
  (decide (qStart ≤ sStart) && decide (qEnd ≥ sEnd))

/-- The half-open interval overlap relation stated by the spec:
[s1,e1) and [s2,e2) conflict iff s1 < e2 AND s2 < e1. -/
def specOverlap (s1 e1 s2 e2 : Nat) : Bool :=
  decide (s1 < e2) && decide (s2 < e1)

/-- `validateDayOfWeek`: membership in the fixed seven-element day list,
embedded as day codes 0..6. -/
def validateDayOfWeek (day : Nat) : Bool :=
  decide (day < 7)

/-- `validateTimeFormat`: an HH:MM string with hours 00..23 and minutes
00..59, embedded as a minute count below 24*60. -/
def validateTimeFormat (time : Nat) : Bool :=
  decide (time < 1440)

inductive Role where
  | STUDENT
  | LECTURER
  | ADMIN
deriving DecidableEq, Repr

/-- The authenticated caller (`req.user`): id plus role. -/
structure AuthUser where
  id : Nat
  role : Role
deriving DecidableEq, Repr

/-- A course row, restricted to the fields the schedule controllers read. -/
structure Course where
  id : Nat
  lecturerId : Nat
deriving DecidableEq, Repr

/-- A schedule row. -/
structure Schedule where
  id : Nat
  venueId : Nat
  lecturerId : Nat
  courseId : Nat
  dayOfWeek : Nat
  startTime : Nat
  endTime : Nat
  semester : Nat
deriving DecidableEq, Repr

/-- The slice of the database the schedule controllers touch: the venue ids
that exist, the course rows, and the schedule table. -/
structure Db where
  venues : List Nat
  courses : List Course
  schedules : List Schedule
deriving DecidableEq, Repr

/-- The body of POST /api/schedules (all fields required). -/
structure CreateRequest where
  venueId : Nat
  courseId : Nat
  dayOfWeek : Nat
  startTime : Nat
  endTime : Nat
  semester : Nat
deriving DecidableEq, Repr

/-- The `prisma.schedule.findFirst` conflict lookup of `createSchedule`:
first schedule on the same venue and day whose times satisfy the
three-clause disjunction. -/
def findConflicting (schedules : List Schedule) (venueId dayOfWeek startTime endTime : Nat) :
    Option Schedule :=
  schedules.find? (fun s =>
    s.venueId == venueId && s.dayOfWeek == dayOfWeek &&
      scheduleConflictQuery startTime endTime s.startTime s.endTime)

/-- `createSchedule`, translated check by check: day validation, time-format
validation, start-before-end validation, venue lookup, course lookup, the
lecturer-ownership check, the conflict query, and finally the insert (the new
row takes the course's lecturerId).  `newId` stands for the id the database
generates. -/
def createSchedule (db : Db) (user : AuthUser) (newId : Nat) (r : CreateRequest) :
    Except String Db :=
  if !validateDayOfWeek r.dayOfWeek then
    Except.error "Invalid day of week"
  else if !(validateTimeFormat r.startTime && validateTimeFormat r.endTime) then
    Except.error "Invalid time format. Use HH:MM"
  else if r.startTime ≥ r.endTime then
    Except.error "Start time must be before end time"
  else if !(db.venues.contains r.venueId) then
    Except.error "Venue not found"
  else
    match db.courses.find? (fun c => c.id == r.courseId) with
    | none => Except.error "Course not found"
    | some course =>
      if user.role == Role.LECTURER && course.lecturerId != user.id then
        Except.error "You are not the lecturer for this course"
      else
        match findConflicting db.schedules r.venueId r.dayOfWeek r.startTime r.endTime with
        | some _ => Except.error "This time slot is already booked for this venue"
        | none =>
          Except.ok { db with
            schedules := db.schedules ++
              [{ id := newId, venueId := r.venueId, lecturerId := course.lecturerId,
                 courseId := r.courseId, dayOfWeek := r.dayOfWeek,
                 startTime := r.startTime, endTime := r.endTime,
                 semester := r.semester }] }

/-- On well-formed intervals the three-clause conflict disjunction coincides
with the half-open overlap relation. -/
theorem conflictQuery_iff (s1 e1 s2 e2 : Nat) (h1 : s1 < e1) (h2 : s2 < e2) :
    scheduleConflictQuery s1 e1 s2 e2 = true ↔ (s1 < e2 ∧ s2 < e1) := by
  simp only [scheduleConflictQuery, Bool.or_eq_true, Bool.and_eq_true, decide_eq_true_eq,
    gt_iff_lt, ge_iff_le]
  omega

/-- C1: for well-formed candidate [s1,e1) and existing [s2,e2) intervals, the
conflict check used when creating a schedule (the three-clause Prisma
disjunction) reports a conflict iff s1 < e2 AND s2 < e1.  The enumerated
special cases follow: identical intervals conflict, strictly adjacent
intervals with e1 = s2 do not, a contained interval conflicts, a partial
overlap conflicts, disjoint intervals do not. -/
theorem createConflict_iff_specOverlap (s1 e1 s2 e2 : Nat)
    (h1 : s1 < e1) (h2 : s2 < e2) :
    scheduleConflictQuery s1 e1 s2 e2 = true ↔ (s1 < e2 ∧ s2 < e1) :=
  conflictQuery_iff s1 e1 s2 e2 h1 h2

/-- Witness for C1 at concrete intervals [09:00,10:00) and [09:30,10:30). -/
theorem createConflict_iff_specOverlap_witness :
    scheduleConflictQuery 540 600 570 630 = true ↔ (540 < 630 ∧ 570 < 600) :=
  createConflict_iff_specOverlap 540 600 570 630 (by decide) (by decide)

/-- C10: the three-clause conflict disjunction of `createSchedule` and the
overlap filter of `checkAvailability` are extensionally equal on all inputs,
and on well-formed intervals both coincide with
existingStart < candidateEnd AND candidateStart < existingEnd. -/
theorem availability_matches_createConflict (s1 e1 s2 e2 : Nat) :
    availabilityOverlap s1 e1 s2 e2 = scheduleConflictQuery s1 e1 s2 e2 ∧
    (s1 < e1 → s2 < e2 →
      (availabilityOverlap s1 e1 s2 e2 = true ↔ (s2 < e1 ∧ s1 < e2))) := by
  have heq : availabilityOverlap s1 e1 s2 e2 = scheduleConflictQuery s1 e1 s2 e2 := by
    simp only [availabilityOverlap, scheduleConflictQuery, ge_iff_le, gt_iff_lt]
  refine ⟨heq, fun h1 h2 => ?_⟩
  rw [heq, conflictQuery_iff s1 e1 s2 e2 h1 h2]
  exact ⟨fun h => ⟨h.2, h.1⟩, fun h => ⟨h.2, h.1⟩⟩

/-- Witness for C10 at the boundary-adjacent pair [09:00,10:00), [10:00,11:00). -/
theorem availability_matches_createConflict_witness :
    availabilityOverlap 540 600 600 660 = scheduleConflictQuery 540 600 600 660 ∧
    (availabilityOverlap 540 600 600 660 = true ↔ (600 < 600 ∧ 540 < 660)) :=
  ⟨(availability_matches_createConflict 540 600 600 660).1,
   (availability_matches_createConflict 540 600 600 660).2 (by decide) (by decide)⟩

/-- No-overlap relation between two schedule rows: if they share venue and
day, their half-open time intervals are disjoint. -/
def slotsNoOverlap (s t : Schedule) : Prop :=
  s.venueId = t.venueId → s.dayOfWeek = t.dayOfWeek →
    ¬(s.startTime < t.endTime ∧ t.startTime < s.endTime)

/-- The schedule-table invariant: every row is well-formed (startTime <
endTime) and rows sharing a venue and day never overlap. -/
def ScheduleInv (schedules : List Schedule) : Prop :=
  (∀ s ∈ schedules, s.startTime < s.endTime) ∧ schedules.Pairwise slotsNoOverlap

theorem slotsNoOverlap_symm : Symmetric slotsNoOverlap := by
  intro a b h hv hd hc
  exact h hv.symm hd.symm ⟨hc.2, hc.1⟩

/-- An accepted create preserves the schedule-table invariant. -/
theorem createSchedule_ok_inv (db : Db) (user : AuthUser) (newId : Nat)
    (r : CreateRequest) (db' : Db) (h : createSchedule db user newId r = Except.ok db')
    (hinv : ScheduleInv db.schedules) : ScheduleInv db'.schedules := by
  unfold createSchedule at h
  split at h
  · exact (Except.noConfusion h)
  split at h
  · exact (Except.noConfusion h)
  split at h
  · exact (Except.noConfusion h)
  split at h
  · exact (Except.noConfusion h)
  split at h
  · exact (Except.noConfusion h)
  next course hcourse =>
    split at h
    · exact (Except.noConfusion h)
    split at h
    · exact (Except.noConfusion h)
    next horder _ _ hconf =>
      cases h
      rename_i hday htime horder2 hvenue hrole
      simp only [findConflicting, List.find?_eq_none, Bool.and_eq_true, beq_iff_eq,
        Bool.not_eq_true] at hconf
      have hlt : r.startTime < r.endTime := by omega
      constructor
      · intro s hs
        rcases List.mem_append.mp hs with hs | hs
        · exact hinv.1 s hs
        · simp only [List.mem_singleton] at hs
          subst hs
          exact hlt
      · rw [List.pairwise_append]
        refine ⟨hinv.2, List.pairwise_singleton _ _, ?_⟩
        intro a ha b hb
        simp only [List.mem_singleton] at hb
        subst hb
        intro hv hd
        have hwf : a.startTime < a.endTime := hinv.1 a ha
        have hq := hconf a ha
        simp only [hv, hd] at hq
        have hq2 : scheduleConflictQuery r.startTime r.endTime a.startTime a.endTime = false := by
          cases hqb : scheduleConflictQuery r.startTime r.endTime a.startTime a.endTime with
          | false => rfl
          | true => rw [hqb] at hq; simp at hq
        have := (conflictQuery_iff r.startTime r.endTime a.startTime a.endTime hlt hwf)
        rw [hq2] at this
        intro hc
        exact (by simpa using this.symm.mp ⟨hc.2, hc.1⟩)

/-- Sequential execution of a list of create requests; stops at the first
rejected request. -/
def runCreates (db : Db) (user : AuthUser) : List (Nat × CreateRequest) → Except String Db
  | [] => Except.ok db
  | (nid, r) :: rest =>
    match createSchedule db user nid r with
    | Except.error e => Except.error e
    | Except.ok db2 => runCreates db2 user rest

theorem runCreates_ok_inv (user : AuthUser) (reqs : List (Nat × CreateRequest)) :
    ∀ db db', ScheduleInv db.schedules → runCreates db user reqs = Except.ok db' →
      ScheduleInv db'.schedules := by
  induction reqs with
  | nil =>
    intro db db' hinv h
    simp only [runCreates] at h
    cases h
    exact hinv
  | cons p rest ih =>
    obtain ⟨nid, r⟩ := p
    intro db db' hinv h
    simp only [runCreates] at h
    cases hc : createSchedule db user nid r with
    | error e => rw [hc] at h; exact (Except.noConfusion h)
    | ok db2 =>
      rw [hc] at h
      exact ih db2 db' (createSchedule_ok_inv db user nid r db2 hc hinv) h

/-- C2: any sequence of schedule creates starting from an empty schedule
table in which every request is accepted leaves a table in which no two
distinct slots sharing a venue and day have overlapping [startTime, endTime)
intervals. -/
theorem acceptedCreates_no_overlap (user : AuthUser) (reqs : List (Nat × CreateRequest))
    (db db' : Db) (h0 : db.schedules = []) (hrun : runCreates db user reqs = Except.ok db') :
    ∀ s ∈ db'.schedules, ∀ t ∈ db'.schedules, s ≠ t → s.venueId = t.venueId →
      s.dayOfWeek = t.dayOfWeek →
      ¬(s.startTime < t.endTime ∧ t.startTime < s.endTime) := by
  have hinv : ScheduleInv db.schedules := by
    rw [h0]
    exact ⟨by simp, List.Pairwise.nil⟩
  have hinv2 := runCreates_ok_inv user reqs db db' hinv hrun
  intro s hs t ht hne hv hd
  exact hinv2.2.forall slotsNoOverlap_symm hs ht hne hv hd

/-- Witness for C2: two boundary-adjacent accepted creates on the same venue
and Monday; the two persisted slots do not overlap. -/
theorem acceptedCreates_no_overlap_witness : ¬(540 < 660 ∧ 600 < 600) :=
  acceptedCreates_no_overlap ⟨10, Role.LECTURER⟩
    [(1, ⟨1, 1, 0, 540, 600, 1⟩), (2, ⟨1, 1, 0, 600, 660, 1⟩)]
    ⟨[1], [⟨1, 10⟩], []⟩
    ⟨[1], [⟨1, 10⟩], [⟨1, 1, 10, 1, 0, 540, 600, 1⟩, ⟨2, 1, 10, 1, 0, 600, 660, 1⟩]⟩
    rfl rfl
    ⟨1, 1, 10, 1, 0, 540, 600, 1⟩ (by decide)
    ⟨2, 1, 10, 1, 0, 600, 660, 1⟩ (by decide)
    (by decide) rfl rfl

/-- The body of PUT /api/schedules/:id: every field optional; a missing field
is the falsy case of the source's truthiness tests. -/
structure UpdateRequest where
  venueId : Option Nat
  courseId : Option Nat
  dayOfWeek : Option Nat
  startTime : Option Nat
  endTime : Option Nat
  semester : Option Nat
deriving DecidableEq, Repr

/-- The `if (courseId)` block of `updateSchedule`: look the course up (404 if
absent), enforce that a non-admin caller owns it (403), and hand the row back
so the update can take `courseId` and `lecturerId` from it. -/
def resolveCourse (courses : List Course) (user : AuthUser) :
    Option Nat → Except String (Option Course)
  | none => Except.ok none
  | some cid =>
    match courses.find? (fun c => c.id == cid) with
    | none => Except.error "Course not found"
    | some course =>
      if user.role != Role.ADMIN && course.lecturerId != user.id then
        Except.error "You are not the lecturer for this course"
      else Except.ok (some course)

/-- The `updateData` object applied by `prisma.schedule.update`: each provided
field replaces the stored one; a provided course sets both courseId and
lecturerId. -/
def applyUpdate (s : Schedule) (r : UpdateRequest) (courseOpt : Option Course) : Schedule :=
  { s with
    venueId := r.venueId.getD s.venueId
    semester := r.semester.getD s.semester
    courseId := (courseOpt.map Course.id).getD s.courseId
    lecturerId := (courseOpt.map Course.lecturerId).getD s.lecturerId
    dayOfWeek := r.dayOfWeek.getD s.dayOfWeek
    startTime := r.startTime.getD s.startTime
    endTime := r.endTime.getD s.endTime }

/-- `updateSchedule`, translated check by check: schedule lookup, the
author/admin authorization, per-field validation (note: no start-before-end
re-check), and — when venue, day or a time is provided — the conflict query
over the resulting (venue, day) pair with the row itself excluded
(id: { not: id }). -/
def updateSchedule (db : Db) (user : AuthUser) (id : Nat) (r : UpdateRequest) :
    Except String Db :=
  match db.schedules.find? (fun s => s.id == id) with
  | none => Except.error "Schedule not found"
  | some schedule =>
    if user.role != Role.ADMIN && schedule.lecturerId != user.id then
      Except.error "Not authorized to update this schedule"
    else if !(r.venueId.all (fun v => db.venues.contains v)) then
      Except.error "Venue not found"
    else
      match resolveCourse db.courses user r.courseId with
      | Except.error e => Except.error e
      | Except.ok courseOpt =>
        if !(r.dayOfWeek.all validateDayOfWeek) then
          Except.error "Invalid day of week"
        else if !(r.startTime.all validateTimeFormat) then
          Except.error "Invalid start time format. Use HH:MM"
        else if !(r.endTime.all validateTimeFormat) then
          Except.error "Invalid end time format. Use HH:MM"
        else if (r.venueId.isSome || r.dayOfWeek.isSome ||
              r.startTime.isSome || r.endTime.isSome) &&
            db.schedules.any (fun s =>
              !(s.id == id) && s.venueId == r.venueId.getD schedule.venueId &&
              s.dayOfWeek == r.dayOfWeek.getD schedule.dayOfWeek &&
              scheduleConflictQuery (r.startTime.getD schedule.startTime)
                (r.endTime.getD schedule.endTime) s.startTime s.endTime) then
          Except.error "This time slot is already booked for this venue"
        else
          Except.ok { db with
            schedules := db.schedules.map (fun s =>
              if s.id == id then applyUpdate s r courseOpt else s) }

/-- C3 evaluation: `createSchedule` rejects an inverted interval, but
`updateSchedule` accepts a request that sets endTime (08:00) before the kept
startTime (09:00) because it never re-checks startTime < endTime, and
persists the inverted slot. -/
theorem updateSchedule_accepts_inverted_interval :
    createSchedule ⟨[1], [⟨1, 10⟩], []⟩ ⟨99, Role.ADMIN⟩ 1 ⟨1, 1, 0, 540, 480, 1⟩ =
      Except.error "Start time must be before end time" ∧
    updateSchedule ⟨[1], [⟨1, 10⟩], [⟨1, 1, 10, 1, 0, 540, 600, 1⟩]⟩ ⟨99, Role.ADMIN⟩ 1
        ⟨none, none, none, none, some 480, none⟩ =
      Except.ok ⟨[1], [⟨1, 10⟩], [⟨1, 1, 10, 1, 0, 540, 480, 1⟩]⟩ ∧
    ¬(540 < 480) := by
  refine ⟨rfl, rfl, by decide⟩

theorem resolveCourse_error_ne (courses : List Course) (user : AuthUser)
    (copt : Option Nat) (e : String) (h : resolveCourse courses user copt = Except.error e) :
    e ≠ "This time slot is already booked for this venue" := by
  cases copt with
  | none => exact (Except.noConfusion h)
  | some cid =>
    simp only [resolveCourse] at h
    split at h
    next heq =>
      injection h with h2
      rw [← h2]
      decide
    next course heq =>
      split at h
      · injection h with h2
        rw [← h2]
        decide
      · exact (Except.noConfusion h)

/-- If `updateSchedule` rejects with the booking-conflict error, some slot
other than the updated one conflicts on the resulting (venue, day) pair. -/
theorem updateSchedule_conflict_surfaces_other (db : Db) (user : AuthUser) (i : Nat)
    (r : UpdateRequest) (schedule : Schedule)
    (hfind : db.schedules.find? (fun s => s.id == i) = some schedule)
    (h : updateSchedule db user i r =
      Except.error "This time slot is already booked for this venue") :
    ∃ s, s ∈ db.schedules ∧ s.id ≠ i ∧
      s.venueId = r.venueId.getD schedule.venueId ∧
      s.dayOfWeek = r.dayOfWeek.getD schedule.dayOfWeek ∧
      scheduleConflictQuery (r.startTime.getD schedule.startTime)
        (r.endTime.getD schedule.endTime) s.startTime s.endTime = true := by
  unfold updateSchedule at h
  split at h
  next heq =>
    rw [hfind] at heq
    exact (Option.noConfusion heq)
  next sch heq =>
    rw [hfind] at heq
    have hsch : sch = schedule := (Option.some.inj heq).symm
    subst hsch
    split at h
    · injection h with h2
      exact absurd h2 (by decide)
    split at h
    · injection h with h2
      exact absurd h2 (by decide)
    split at h
    next e heq2 =>
      injection h with h2
      exact absurd h2 (resolveCourse_error_ne db.courses user r.courseId e heq2)
    next courseOpt heq2 =>
      split at h
      · injection h with h2
        exact absurd h2 (by decide)
      split at h
      · injection h with h2
        exact absurd h2 (by decide)
      split at h
      · injection h with h2
        exact absurd h2 (by decide)
      split at h
      next hcond =>
        rw [Bool.and_eq_true, List.any_eq_true] at hcond
        obtain ⟨s, hs, hpred⟩ := hcond.2
        simp only [Bool.and_eq_true, Bool.not_eq_true', beq_iff_eq, beq_eq_false_iff_ne,
          ne_eq] at hpred
        exact ⟨s, hs, hpred.1.1.1, hpred.1.1.2, hpred.1.2, hpred.2⟩
      next => exact (Except.noConfusion h)

/-- C4: the update conflict check excludes the updated slot's own prior
record: a booking-conflict rejection always exhibits a slot with a different
id, and under the schedule-table invariant an update that keeps the slot
inside its own previous interval (venue and day unchanged) is never rejected
with the booking-conflict error. -/
theorem updateSchedule_excludes_self (db : Db) (user : AuthUser) (i : Nat)
    (r : UpdateRequest) (schedule : Schedule)
    (hfind : db.schedules.find? (fun s => s.id == i) = some schedule) :
    (updateSchedule db user i r =
        Except.error "This time slot is already booked for this venue" →
      ∃ s, s ∈ db.schedules ∧ s.id ≠ i ∧
        s.venueId = r.venueId.getD schedule.venueId ∧
        s.dayOfWeek = r.dayOfWeek.getD schedule.dayOfWeek ∧
        scheduleConflictQuery (r.startTime.getD schedule.startTime)
          (r.endTime.getD schedule.endTime) s.startTime s.endTime = true) ∧
    (ScheduleInv db.schedules → r.venueId = none → r.dayOfWeek = none →
      schedule.startTime ≤ r.startTime.getD schedule.startTime →
      r.endTime.getD schedule.endTime ≤ schedule.endTime →
      r.startTime.getD schedule.startTime < r.endTime.getD schedule.endTime →
      updateSchedule db user i r ≠
        Except.error "This time slot is already booked for this venue") := by
  refine ⟨updateSchedule_conflict_surfaces_other db user i r schedule hfind, ?_⟩
  intro hinv hve hde hs1 he1 hlt h
  obtain ⟨s, hs, hsid, hsv, hsd, hq⟩ :=
    updateSchedule_conflict_surfaces_other db user i r schedule hfind h
  rw [hve] at hsv
  rw [hde] at hsd
  simp only [Option.getD_none] at hsv hsd
  have hmem : schedule ∈ db.schedules := List.mem_of_find?_eq_some hfind
  have hid : schedule.id = i := by
    have := List.find?_some hfind
    simpa [beq_iff_eq] using this
  have hne : s ≠ schedule := by
    intro hcontra
    exact hsid (hcontra ▸ hid)
  have hnoov := hinv.2.forall slotsNoOverlap_symm hs hmem hne hsv hsd
  have hswf : s.startTime < s.endTime := hinv.1 s hs
  have hover := (conflictQuery_iff (r.startTime.getD schedule.startTime)
    (r.endTime.getD schedule.endTime) s.startTime s.endTime hlt hswf).mp hq
  exact hnoov ⟨by omega, by omega⟩

/-- Witness for C4: a single slot [09:00,10:00); shrinking it to
[09:10,09:50) is not rejected as conflicting with itself. -/
theorem updateSchedule_excludes_self_witness :
    updateSchedule ⟨[1], [⟨1, 10⟩], [⟨1, 1, 10, 1, 0, 540, 600, 1⟩]⟩ ⟨99, Role.ADMIN⟩ 1
        ⟨none, none, none, some 550, some 590, none⟩ ≠
      Except.error "This time slot is already booked for this venue" :=
  (updateSchedule_excludes_self ⟨[1], [⟨1, 10⟩], [⟨1, 1, 10, 1, 0, 540, 600, 1⟩]⟩
      ⟨99, Role.ADMIN⟩ 1 ⟨none, none, none, some 550, some 590, none⟩
      ⟨1, 1, 10, 1, 0, 540, 600, 1⟩ rfl).2
    ⟨by intro s hs; simp only [List.mem_singleton] at hs; subst hs; decide,
     List.pairwise_singleton _ _⟩
    rfl rfl (by decide) (by decide) (by decide)

/-- A notification row: recipient, closed-tag type, message, optional deep
link, and the monotonic read flag. -/
structure Notification where
  id : Nat
  userId : Nat
  type : String
  message : String
  link : Option String
  read : Bool
deriving DecidableEq, Repr

/-- An enrollment row linking a student to a course with a status string. -/
structure Enrollment where
  courseId : Nat
  studentId : Nat
  status : String
deriving DecidableEq, Repr

/-- `notifyCourseStudents` (announcement-service notificationService): fetch
the course's enrollments, excluding `excludeStudentIds` via notIn when the
list is nonempty — note: no filter on enrollment status — and, when any
remain, create one notification per enrollment and return the studentIds;
with no matching enrollment return null and create nothing.  `nextId` stands
for the database-generated ids of the created rows. -/
def notifyCourseStudents (enrollments : List Enrollment) (notifications : List Notification)
    (nextId courseId : Nat) (ty msg : String) (link : Option String)
    (excludeStudentIds : List Nat) : List Notification × Option (List Nat) :=
  let matched := enrollments.filter (fun e =>
    e.courseId == courseId &&
      (excludeStudentIds.isEmpty || !(excludeStudentIds.contains e.studentId)))
  if matched.isEmpty then (notifications, none)
  else
    (notifications ++ matched.enum.map (fun p =>
        { id := nextId + p.1, userId := p.2.studentId, type := ty, message := msg,
          link := link, read := false }),
     some (matched.map Enrollment.studentId))

/-- C5 refuted at a concrete input: a course whose only enrollment has status
DROPPED (not active) still receives a notification record — the enrollment
query has no status filter, so the claim's zero-record outcome for an
inactive roster is false. -/
theorem notifyCourseStudents_notifies_dropped :
    notifyCourseStudents [⟨1, 7, "DROPPED"⟩] [] 0 1 "SCHEDULE_CREATED" "msg" none [] =
      ([⟨0, 7, "SCHEDULE_CREATED", "msg", none, false⟩], some [7]) := rfl

theorem excludePredicate_eq (ex : List Nat) (x : Nat) :
    (ex.isEmpty || !(ex.contains x)) = !(decide (x ∈ ex)) := by
  cases ex with
  | nil => simp
  | cons a l => simp [List.isEmpty]

theorem length_filter_not_mem (roster : List Nat) : ∀ ex : List Nat, roster.Nodup →
    ex.Nodup → (∀ x ∈ ex, x ∈ roster) →
    (roster.filter (fun x => !(decide (x ∈ ex)))).length = roster.length - ex.length := by
  induction roster with
  | nil =>
    intro ex _ _ hsub
    have hex : ex = [] := List.eq_nil_iff_forall_not_mem.mpr
      (fun x hx => (List.not_mem_nil x) (hsub x hx))
    subst hex
    simp
  | cons y rest ih =>
    intro ex hr he hsub
    have hyrest : y ∉ rest := (List.nodup_cons.mp hr).1
    have hrest : rest.Nodup := (List.nodup_cons.mp hr).2
    by_cases hy : y ∈ ex
    · have hstep : (y :: rest).filter (fun x => !(decide (x ∈ ex))) =
          rest.filter (fun x => !(decide (x ∈ ex))) := by
        simp [List.filter_cons, hy]
      have hcongr : rest.filter (fun x => !(decide (x ∈ ex))) =
          rest.filter (fun x => !(decide (x ∈ ex.erase y))) := by
        apply List.filter_congr
        intro x hx
        have hxy : x ≠ y := fun hh => hyrest (hh ▸ hx)
        simp [List.mem_erase_of_ne hxy]
      have hsub2 : ∀ x ∈ ex.erase y, x ∈ rest := by
        intro x hx
        rcases (he.mem_erase_iff).mp hx with ⟨hxy, hxex⟩
        rcases List.mem_cons.mp (hsub x hxex) with h1 | h1
        · exact absurd h1 hxy
        · exact h1
      have hlen := List.length_erase_of_mem hy
      have hpos := List.length_pos_of_mem hy
      have hrec := ih (ex.erase y) hrest (he.erase y) hsub2
      rw [hstep, hcongr, hrec, hlen]
      simp only [List.length_cons]
      omega
    · have hstep : (y :: rest).filter (fun x => !(decide (x ∈ ex))) =
          y :: rest.filter (fun x => !(decide (x ∈ ex))) := by
        simp [List.filter_cons, hy]
      have hsub2 : ∀ x ∈ ex, x ∈ rest := by
        intro x hx
        rcases List.mem_cons.mp (hsub x hx) with h1 | h1
        · exact absurd (h1 ▸ hx) hy
        · exact h1
      have hbound := (List.subperm_of_subset he (fun x hx => hsub2 x hx)).length_le
      have hrec := ih ex hrest he hsub2
      rw [hstep]
      simp only [List.length_cons, hrec]
      omega

/-- C5 amended: with a nodup per-course roster, a nodup exclude list wholly
contained in it, resolving a course-roster target creates exactly N − k
records where N counts the course's enrollments of ANY status (the query has
no active-status filter) and k the excluded ids; every created record carries
the given type, message and link, its recipient is an enrolled, non-excluded
studentId, and the pre-existing records are untouched. -/
theorem notifyCourseStudents_roster (enrollments : List Enrollment)
    (notifications : List Notification) (nextId cid : Nat) (ty msg : String)
    (link : Option String) (ex : List Nat)
    (hnodup : ((enrollments.filter (fun e => e.courseId == cid)).map
      Enrollment.studentId).Nodup)
    (hexnodup : ex.Nodup)
    (hexsub : ∀ x ∈ ex,
      x ∈ (enrollments.filter (fun e => e.courseId == cid)).map Enrollment.studentId) :
    ((notifyCourseStudents enrollments notifications nextId cid ty msg link ex).1).length =
      notifications.length +
        ((enrollments.filter (fun e => e.courseId == cid)).length - ex.length) ∧
    (∀ n ∈ ((notifyCourseStudents enrollments notifications nextId cid ty msg link ex).1).drop
        notifications.length,
      n.type = ty ∧ n.message = msg ∧ n.link = link ∧ n.userId ∉ ex ∧
        n.userId ∈ (enrollments.filter (fun e => e.courseId == cid)).map
          Enrollment.studentId) ∧
    ((notifyCourseStudents enrollments notifications nextId cid ty msg link ex).1).take
      notifications.length = notifications := by
  have hpred : enrollments.filter (fun e =>
      e.courseId == cid && (ex.isEmpty || !(ex.contains e.studentId))) =
      (enrollments.filter (fun e => e.courseId == cid)).filter
        (fun e => !(decide (e.studentId ∈ ex))) := by
    rw [List.filter_filter]
    apply List.filter_congr
    intro e he2
    rw [excludePredicate_eq, Bool.and_comm]
  have hmap : ((enrollments.filter (fun e => e.courseId == cid)).filter
      (fun e => !(decide (e.studentId ∈ ex)))).map Enrollment.studentId =
      ((enrollments.filter (fun e => e.courseId == cid)).map Enrollment.studentId).filter
        (fun x => !(decide (x ∈ ex))) := by
    rw [List.filter_map]
    rfl
  have hcount : ((enrollments.filter (fun e => e.courseId == cid)).filter
      (fun e => !(decide (e.studentId ∈ ex)))).length =
      (enrollments.filter (fun e => e.courseId == cid)).length - ex.length := by
    have h1 : ((enrollments.filter (fun e => e.courseId == cid)).filter
        (fun e => !(decide (e.studentId ∈ ex)))).length =
        (((enrollments.filter (fun e => e.courseId == cid)).filter
          (fun e => !(decide (e.studentId ∈ ex)))).map Enrollment.studentId).length := by
      rw [List.length_map]
    rw [h1, hmap, length_filter_not_mem _ ex hnodup hexnodup hexsub, List.length_map]
  simp only [notifyCourseStudents, hpred]
  by_cases hemp : ((enrollments.filter (fun e => e.courseId == cid)).filter
      (fun e => !(decide (e.studentId ∈ ex)))).isEmpty
  · rw [if_pos hemp]
    have hz : ((enrollments.filter (fun e => e.courseId == cid)).filter
        (fun e => !(decide (e.studentId ∈ ex)))).length = 0 := by
      rw [List.isEmpty_iff] at hemp
      rw [hemp]
      rfl
    refine ⟨by dsimp only; rw [hcount] at hz; omega, ?_, List.take_length notifications⟩
    intro n hn
    rw [List.drop_length] at hn
    exact absurd hn (List.not_mem_nil n)
  · rw [if_neg hemp]
    refine ⟨?_, ?_, List.take_left notifications _⟩
    · simp only [List.length_append, List.length_map]
      rw [← hcount]
      have : (((enrollments.filter (fun e => e.courseId == cid)).filter
          (fun e => !(decide (e.studentId ∈ ex)))).enum).length =
          ((enrollments.filter (fun e => e.courseId == cid)).filter
            (fun e => !(decide (e.studentId ∈ ex)))).length := by
        simp [List.enum]
      omega
    · intro n hn
      rw [List.drop_left] at hn
      obtain ⟨p, hp, rfl⟩ := List.mem_map.mp hn
      refine ⟨rfl, rfl, rfl, ?_, ?_⟩
      · have hsnd : p.2 ∈ (enrollments.filter (fun e => e.courseId == cid)).filter
            (fun e => !(decide (e.studentId ∈ ex))) := by
          have hh := List.mem_map_of_mem Prod.snd hp
          simpa [List.enum, List.enumFrom_map_snd] using hh
        have hsid := List.mem_map_of_mem Enrollment.studentId hsnd
        rw [hmap] at hsid
        have := (List.mem_filter.mp hsid).2
        simp only [Bool.not_eq_true', decide_eq_false_iff_not] at this
        exact this
      · have hsnd : p.2 ∈ (enrollments.filter (fun e => e.courseId == cid)).filter
            (fun e => !(decide (e.studentId ∈ ex))) := by
          have hh := List.mem_map_of_mem Prod.snd hp
          simpa [List.enum, List.enumFrom_map_snd] using hh
        have hsid := List.mem_map_of_mem Enrollment.studentId hsnd
        rw [hmap] at hsid
        exact List.mem_of_mem_filter hsid

/-- Witness for the amended C5: course 1 has enrollments for students 7 and 8
and an unrelated course-2 enrollment; excluding student 7 creates exactly
2 − 1 = 1 record. -/
theorem notifyCourseStudents_roster_witness :
    ((notifyCourseStudents [⟨1, 7, "ACTIVE"⟩, ⟨1, 8, "ACTIVE"⟩, ⟨2, 9, "ACTIVE"⟩]
        [] 0 1 "NEW_ANNOUNCEMENT" "m" none [7]).1).length =
      0 + (([⟨1, 7, "ACTIVE"⟩, ⟨1, 8, "ACTIVE"⟩,
        (⟨2, 9, "ACTIVE"⟩ : Enrollment)].filter (fun e => e.courseId == 1)).length -
        [7].length) :=
  (notifyCourseStudents_roster [⟨1, 7, "ACTIVE"⟩, ⟨1, 8, "ACTIVE"⟩, ⟨2, 9, "ACTIVE"⟩]
    [] 0 1 "NEW_ANNOUNCEMENT" "m" none [7] (by decide) (by decide) (by decide)).1

/-- The options object taken by `createNotification`: an individual userId,
or a targetAudience with an optional excluded user. -/
structure NotifyOptions where
  userId : Option Nat
  type : String
  message : String
  link : Option String
  targetAudience : Option String
  excludeUserId : Option Nat
deriving DecidableEq, Repr

/-- The `where` clause `createNotification` builds for a bulk send: a role
filter for STUDENTS / LECTURERS (none for ALL), plus id: { not: excludeUserId }
when an exclusion is given. -/
def audienceMatches (targetAudience : String) (excludeUserId : Option Nat)
    (u : AuthUser) : Bool :=
  (if targetAudience == "STUDENTS" then u.role == Role.STUDENT
   else if targetAudience == "LECTURERS" then u.role == Role.LECTURER
   else true) &&
  (match excludeUserId with
   | some ex => !(u.id == ex)
   | none => true)

/-- `createNotification` (announcement-service notificationService): an
individual notification when userId is given; otherwise, with a
targetAudience, one record per user matching the audience filter (created
only when at least one user matches); otherwise nothing.  `nextId` stands for
the database-generated ids. -/
def createNotification (users : List AuthUser) (notifications : List Notification)
    (nextId : Nat) (options : NotifyOptions) : List Notification :=
  match options.userId with
  | some uid =>
    notifications ++ [{ id := nextId, userId := uid, type := options.type,
                        message := options.message, link := options.link, read := false }]
  | none =>
    match options.targetAudience with
    | none => notifications
    | some ta =>
      let matched := users.filter (audienceMatches ta options.excludeUserId)
      if matched.isEmpty then notifications
      else
        notifications ++ matched.enum.map (fun p =>
          { id := nextId + p.1, userId := p.2.id, type := options.type,
            message := options.message, link := options.link, read := false })

theorem audienceMatches_iff (ta : String) (ex : Option Nat) (u : AuthUser) :
    audienceMatches ta ex u = true ↔
      ((ta = "STUDENTS" → u.role = Role.STUDENT) ∧
       (ta = "LECTURERS" → u.role = Role.LECTURER) ∧
       (∀ e, ex = some e → u.id ≠ e)) := by
  unfold audienceMatches
  by_cases h1 : ta = "STUDENTS"
  · subst h1
    cases ex with
    | none => simp
    | some e => simp [and_comm]
  · by_cases h2 : ta = "LECTURERS"
    · subst h2
      cases ex with
      | none => simp
      | some e => simp [and_comm]
    · have hb1 : (ta == "STUDENTS") = false := by
        simp [h1]
      have hb2 : (ta == "LECTURERS") = false := by
        simp [h2]
      cases ex with
      | none => simp [hb1, hb2, h1, h2]
      | some e => simp [hb1, hb2, h1, h2]

/-- C6: a bulk audience notification creates exactly one record per user
matching the role filter (no role filter for ALL or any other value) minus
the optional excluded id; recipients are pairwise distinct when user ids are;
all created records carry the given type, message and link; an empty
audience creates nothing and is not an error; pre-existing records are
untouched. -/
theorem createNotification_bulk (users : List AuthUser) (notifications : List Notification)
    (nextId : Nat) (ty msg : String) (link : Option String) (ta : String) (ex : Option Nat)
    (hnodup : (users.map AuthUser.id).Nodup) :
    (createNotification users notifications nextId ⟨none, ty, msg, link, some ta, ex⟩).take
        notifications.length = notifications ∧
    ((createNotification users notifications nextId ⟨none, ty, msg, link, some ta, ex⟩).drop
        notifications.length).map Notification.userId =
      (users.filter (audienceMatches ta ex)).map AuthUser.id ∧
    (((createNotification users notifications nextId ⟨none, ty, msg, link, some ta, ex⟩).drop
        notifications.length).map Notification.userId).Nodup ∧
    (∀ uid, uid ∈ ((createNotification users notifications nextId
        ⟨none, ty, msg, link, some ta, ex⟩).drop notifications.length).map
          Notification.userId ↔
      ∃ u, u ∈ users ∧ u.id = uid ∧
        (ta = "STUDENTS" → u.role = Role.STUDENT) ∧
        (ta = "LECTURERS" → u.role = Role.LECTURER) ∧
        (∀ e, ex = some e → uid ≠ e)) ∧
    (∀ n ∈ (createNotification users notifications nextId
        ⟨none, ty, msg, link, some ta, ex⟩).drop notifications.length,
      n.type = ty ∧ n.message = msg ∧ n.link = link) := by
  have hkey : createNotification users notifications nextId ⟨none, ty, msg, link, some ta, ex⟩ =
      notifications ++ (users.filter (audienceMatches ta ex)).enum.map (fun p =>
        ({ id := nextId + p.1, userId := p.2.id, type := ty, message := msg,
           link := link, read := false } : Notification)) := by
    simp only [createNotification]
    by_cases hemp : (users.filter (audienceMatches ta ex)).isEmpty
    · rw [if_pos hemp]
      rw [List.isEmpty_iff] at hemp
      rw [hemp]
      simp
    · rw [if_neg hemp]
  have hsnd : (users.filter (audienceMatches ta ex)).enum.map Prod.snd =
      users.filter (audienceMatches ta ex) := by
    simp [List.enum, List.enumFrom_map_snd]
  have hmapid : (((users.filter (audienceMatches ta ex)).enum.map (fun p =>
      ({ id := nextId + p.1, userId := p.2.id, type := ty, message := msg,
         link := link, read := false } : Notification))).map Notification.userId) =
      (users.filter (audienceMatches ta ex)).map AuthUser.id := by
    rw [List.map_map]
    conv_rhs => rw [← hsnd, List.map_map]
    rfl
  refine ⟨?_, ?_, ?_, ?_, ?_⟩
  · rw [hkey, List.take_left]
  · rw [hkey, List.drop_left, hmapid]
  · rw [hkey, List.drop_left, hmapid]
    exact List.Nodup.sublist (List.Sublist.map AuthUser.id (List.filter_sublist users)) hnodup
  · intro uid
    rw [hkey, List.drop_left, hmapid]
    simp only [List.mem_map, List.mem_filter]
    constructor
    · rintro ⟨u, ⟨hu, hmatch⟩, rfl⟩
      rcases (audienceMatches_iff ta ex u).mp hmatch with ⟨h1, h2, h3⟩
      exact ⟨u, hu, rfl, h1, h2, h3⟩
    · rintro ⟨u, hu, rfl, h1, h2, h3⟩
      exact ⟨u, ⟨hu, (audienceMatches_iff ta ex u).mpr ⟨h1, h2, h3⟩⟩, rfl⟩
  · intro n hn
    rw [hkey, List.drop_left] at hn
    obtain ⟨p, hp, rfl⟩ := List.mem_map.mp hn
    exact ⟨rfl, rfl, rfl⟩

/-- Witness for C6: two users, STUDENTS audience, no exclusion — the single
created record's recipient is the student. -/
theorem createNotification_bulk_witness :
    (createNotification [⟨1, Role.STUDENT⟩, ⟨2, Role.LECTURER⟩] [] 0
        ⟨none, "SYSTEM", "m", none, some "STUDENTS", none⟩).take 0 = [] ∧
    ((createNotification [⟨1, Role.STUDENT⟩, ⟨2, Role.LECTURER⟩] [] 0
        ⟨none, "SYSTEM", "m", none, some "STUDENTS", none⟩).drop 0).map
      Notification.userId =
      ([⟨1, Role.STUDENT⟩, (⟨2, Role.LECTURER⟩ : AuthUser)].filter
        (audienceMatches "STUDENTS" none)).map AuthUser.id :=
  ⟨(createNotification_bulk [⟨1, Role.STUDENT⟩, ⟨2, Role.LECTURER⟩] [] 0
      "SYSTEM" "m" none "STUDENTS" none (by decide)).1,
   (createNotification_bulk [⟨1, Role.STUDENT⟩, ⟨2, Role.LECTURER⟩] [] 0
      "SYSTEM" "m" none "STUDENTS" none (by decide)).2.1⟩

/-- `markNotificationAsRead` (notification-service PUT /:id/read): findFirst
on { id, userId: caller } — NotFound when the record does not belong to the
caller — then update the row's read flag by id. -/
def markNotificationAsRead (notifications : List Notification) (callerId i : Nat) :
    Except String (List Notification) :=
  match notifications.find? (fun n => n.id == i && n.userId == callerId) with
  | none => Except.error "Notification not found or you are not authorized"
  | some _ =>
    Except.ok (notifications.map (fun n =>
      if n.id == i then { n with read := true } else n))

/-- `markAsRead` (shared notificationService helper used by the monolith
notificationController): prisma.notification.update by id alone — no
ownership filter; the update throws only when no row has the id. -/
def markAsRead (notifications : List Notification) (i : Nat) :
    Except String (List Notification) :=
  if notifications.any (fun n => n.id == i) then
    Except.ok (notifications.map (fun n =>
      if n.id == i then { n with read := true } else n))
  else Except.error "Record to update not found."

/-- C7 refuted at a concrete input: notification 1 belongs to user 2, yet the
monolith path (`markAsRead`, reached from PUT /api/notifications/:id/read)
takes no caller identity at all and flips the read flag for any caller. -/
theorem markAsRead_ignores_ownership :
    markAsRead [⟨1, 2, "SYSTEM", "m", none, false⟩] 1 =
      Except.ok [⟨1, 2, "SYSTEM", "m", none, true⟩] := rfl

/-- C7 amended: the notification-service endpoint is owner-scoped — a caller
who does not own the record gets NotFound and no row is written, and the
owner's call succeeds — while the monolith `markAsRead` helper updates any
existing notification with no ownership check. -/
theorem markNotificationAsRead_owner_scoped (notifications : List Notification)
    (callerId i : Nat) (n : Notification) (hmem : n ∈ notifications) (hid : n.id = i)
    (hids : (notifications.map Notification.id).Nodup) :
    (n.userId ≠ callerId → markNotificationAsRead notifications callerId i =
      Except.error "Notification not found or you are not authorized") ∧
    (n.userId = callerId →
      ∃ l, markNotificationAsRead notifications callerId i = Except.ok l) ∧
    markAsRead notifications i =
      Except.ok (notifications.map (fun m =>
        if m.id == i then { m with read := true } else m)) := by
  refine ⟨?_, ?_, ?_⟩
  · intro hne
    have hnone : notifications.find? (fun m => m.id == i && m.userId == callerId) = none := by
      rw [List.find?_eq_none]
      intro m hm hcontra
      rw [Bool.and_eq_true, beq_iff_eq, beq_iff_eq] at hcontra
      have hmn : m = n :=
        List.inj_on_of_nodup_map hids hm hmem (hcontra.1.trans hid.symm)
      exact hne (hmn ▸ hcontra.2)
    unfold markNotificationAsRead
    rw [hnone]
  · intro hown
    have hpred : (n.id == i && n.userId == callerId) = true := by
      rw [Bool.and_eq_true, beq_iff_eq, beq_iff_eq]
      exact ⟨hid, hown⟩
    have hsome : (notifications.find? (fun m => m.id == i && m.userId == callerId)).isSome :=
      List.find?_isSome.mpr ⟨n, hmem, hpred⟩
    unfold markNotificationAsRead
    cases hf : notifications.find? (fun m => m.id == i && m.userId == callerId) with
    | none => rw [hf] at hsome; exact absurd hsome (by simp)
    | some m => exact ⟨_, rfl⟩
  · have hany : notifications.any (fun m => m.id == i) = true :=
      List.any_eq_true.mpr ⟨n, hmem, by rw [beq_iff_eq]; exact hid⟩
    unfold markAsRead
    rw [if_pos hany]

/-- Witness for the amended C7: user 3 calling the notification-service
endpoint on user 2's notification gets NotFound. -/
theorem markNotificationAsRead_owner_scoped_witness :
    markNotificationAsRead [⟨1, 2, "SYSTEM", "m", none, false⟩] 3 1 =
      Except.error "Notification not found or you are not authorized" :=
  (markNotificationAsRead_owner_scoped [⟨1, 2, "SYSTEM", "m", none, false⟩] 3 1
    ⟨1, 2, "SYSTEM", "m", none, false⟩ (by decide) rfl (by decide)).1 (by decide)

theorem zip_map_self {α β : Type} (f : α → β) (l : List α) :
    l.zip (l.map f) = l.map (fun a => (a, f a)) := by
  induction l with
  | nil => rfl
  | cons x xs ih => simp [ih]

/-- `markAllAsRead` / `markAllNotificationsAsRead`: updateMany on
{ userId, read: false } setting read := true, returning the matched count. -/
def markAllAsRead (notifications : List Notification) (userId : Nat) :
    List Notification × Nat :=
  (notifications.map (fun n =>
     if n.userId == userId && !n.read then { n with read := true } else n),
   notifications.countP (fun n => n.userId == userId && !n.read))

/-- C8: `markAllAsRead u` transitions exactly u's unread records to read —
other users' records and u's already-read records are untouched — returns the
number transitioned, and an immediately repeated call transitions zero
records, returns 0, and leaves the store unchanged. -/
theorem markAllAsRead_idempotent (l : List Notification) (u : Nat) :
    ((markAllAsRead l u).1.length = l.length) ∧
    ((markAllAsRead l u).2 = l.countP (fun n => n.userId == u && !n.read)) ∧
    (∀ p ∈ l.zip (markAllAsRead l u).1,
      (p.1.userId ≠ u → p.2 = p.1) ∧
      (p.1.read = true → p.2 = p.1) ∧
      (p.1.userId = u → p.1.read = false → p.2 = { p.1 with read := true })) ∧
    markAllAsRead (markAllAsRead l u).1 u = ((markAllAsRead l u).1, 0) := by
  have hff : ∀ n : Notification,
      (fun n => if n.userId == u && !n.read then { n with read := true } else n)
        ((fun n => if n.userId == u && !n.read then { n with read := true } else n) n) =
      (fun n => if n.userId == u && !n.read then { n with read := true } else n) n := by
    intro n
    by_cases hc : (n.userId == u && !n.read) = true
    · simp [hc]
    · simp only [Bool.not_eq_true] at hc
      simp [hc]
  refine ⟨by simp [markAllAsRead], rfl, ?_, ?_⟩
  · intro p hp
    simp only [markAllAsRead] at hp
    rw [zip_map_self] at hp
    obtain ⟨a, ha, rfl⟩ := List.mem_map.mp hp
    dsimp only
    refine ⟨?_, ?_, ?_⟩
    · intro hne
      have hb : (a.userId == u) = false := beq_eq_false_iff_ne.mpr hne
      simp [hb]
    · intro hread
      simp [hread]
    · intro hown hunread
      have hb : (a.userId == u) = true := beq_iff_eq.mpr hown
      simp [hb, hunread]
  · simp only [markAllAsRead, Prod.mk.injEq]
    constructor
    · rw [List.map_map]
      have : ((fun n : Notification =>
          if n.userId == u && !n.read then { n with read := true } else n) ∘
          (fun n => if n.userId == u && !n.read then { n with read := true } else n)) =
          (fun n => if n.userId == u && !n.read then { n with read := true } else n) := by
        funext n
        exact hff n
      rw [this]
    · rw [List.countP_map, List.countP_eq_zero]
      intro a _
      by_cases hc : (a.userId == u && !a.read) = true
      · simp only [Function.comp, hc, if_true]
        simp
      · simp only [Bool.not_eq_true] at hc
        simp only [Function.comp, hc, if_false]
        simp [hc]

/-- Witness for C8 at a concrete store: one unread record of user 7, one read
record of user 7, one record of user 9; the repeated call is a no-op
returning 0, and the unread record was transitioned. -/
theorem markAllAsRead_idempotent_witness :
    markAllAsRead (markAllAsRead [⟨1, 7, "SYSTEM", "a", none, false⟩,
        ⟨2, 7, "SYSTEM", "b", none, true⟩, ⟨3, 9, "SYSTEM", "c", none, false⟩] 7).1 7 =
      ((markAllAsRead [⟨1, 7, "SYSTEM", "a", none, false⟩,
        ⟨2, 7, "SYSTEM", "b", none, true⟩, ⟨3, 9, "SYSTEM", "c", none, false⟩] 7).1, 0) ∧
    ((⟨1, 7, "SYSTEM", "a", none, false⟩ : Notification),
        (⟨1, 7, "SYSTEM", "a", none, true⟩ : Notification)).2 =
      { (⟨1, 7, "SYSTEM", "a", none, false⟩ : Notification) with read := true } :=
  ⟨(markAllAsRead_idempotent [⟨1, 7, "SYSTEM", "a", none, false⟩,
      ⟨2, 7, "SYSTEM", "b", none, true⟩, ⟨3, 9, "SYSTEM", "c", none, false⟩] 7).2.2.2,
   ((markAllAsRead_idempotent [⟨1, 7, "SYSTEM", "a", none, false⟩,
      ⟨2, 7, "SYSTEM", "b", none, true⟩, ⟨3, 9, "SYSTEM", "c", none, false⟩] 7).2.2.1
      (⟨1, 7, "SYSTEM", "a", none, false⟩, ⟨1, 7, "SYSTEM", "a", none, true⟩)
      (by decide)).2.2 rfl rfl⟩

/-- A venue row. -/
structure Venue where
  id : Nat
  name : String
  building : String
  capacity : Nat
  facilities : List String
  status : String
deriving DecidableEq, Repr

/-- `validateVenueStatus`: membership in the fixed status list. -/
def validateVenueStatus (s : String) : Bool :=
  s == "AVAILABLE" || s == "OCCUPIED" || s == "MAINTENANCE"

/-- The body of PUT /venues/:id, every field optional. -/
structure VenueUpdateBody where
  name : Option String
  building : Option String
  capacity : Option Nat
  facilities : Option (List String)
  status : Option String
deriving DecidableEq, Repr

/-- First-occurrence deduplication, the order a JavaScript
[...new Set(xs)] produces. -/
def uniqueAux (seen : List Nat) : List Nat → List Nat
  | [] => []
  | x :: xs => if seen.contains x then uniqueAux seen xs else x :: uniqueAux (x :: seen) xs

def uniqueList (l : List Nat) : List Nat := uniqueAux [] l

theorem uniqueAux_mem (l : List Nat) : ∀ (seen : List Nat) (x : Nat),
    x ∈ uniqueAux seen l → x ∈ l := by
  induction l with
  | nil =>
    intro seen x h
    exact absurd h (List.not_mem_nil x)
  | cons y ys ih =>
    intro seen x h
    simp only [uniqueAux] at h
    split at h
    · exact List.mem_cons_of_mem y (ih seen x h)
    · rcases List.mem_cons.mp h with h2 | h2
      · exact h2 ▸ List.mem_cons_self y ys
      · exact List.mem_cons_of_mem y (ih (y :: seen) x h2)

theorem uniqueAux_not_mem_seen (l : List Nat) : ∀ (seen : List Nat) (x : Nat),
    x ∈ uniqueAux seen l → x ∉ seen := by
  induction l with
  | nil =>
    intro seen x h
    exact absurd h (List.not_mem_nil x)
  | cons y ys ih =>
    intro seen x h
    simp only [uniqueAux] at h
    split at h
    next hc => exact ih seen x h
    next hc =>
      rcases List.mem_cons.mp h with h2 | h2
      · intro hxs
        exact hc (by simpa [h2] using hxs)
      · intro hxs
        exact (ih (y :: seen) x h2) (List.mem_cons_of_mem y hxs)

theorem uniqueAux_nodup (l : List Nat) : ∀ seen : List Nat, (uniqueAux seen l).Nodup := by
  induction l with
  | nil =>
    intro seen
    exact List.Pairwise.nil
  | cons y ys ih =>
    intro seen
    simp only [uniqueAux]
    split
    · exact ih seen
    · rw [List.nodup_cons]
      refine ⟨?_, ih (y :: seen)⟩
      intro hy
      exact (uniqueAux_not_mem_seen ys (y :: seen) y hy) (List.mem_cons_self y seen)

/-- `updateVenue` from the point the venue row was found: build updateData
from the provided fields; when a valid status different from the current one
is provided and the venue has schedules, attempt one notification-service
call per distinct lecturerId — each call's failure is caught, logged and
swallowed — then persist and answer 200.  `notifyOk` gives each remote
call's outcome; the attempts list records the calls made. -/
def updateVenue (venue : Venue) (schedLecturerIds : List Nat) (body : VenueUpdateBody)
    (notifyOk : Nat → Bool) : Except String (Venue × List (Nat × Bool)) :=
  match body.status with
  | none =>
    Except.ok ({ venue with
        name := body.name.getD venue.name
        building := body.building.getD venue.building
        capacity := body.capacity.getD venue.capacity
        facilities := body.facilities.getD venue.facilities }, [])
  | some st =>
    if !validateVenueStatus st then
      Except.error "Invalid venue status"
    else
      Except.ok ({ venue with
          name := body.name.getD venue.name
          building := body.building.getD venue.building
          capacity := body.capacity.getD venue.capacity
          facilities := body.facilities.getD venue.facilities
          status := st },
        if !(st == venue.status) && !schedLecturerIds.isEmpty then
          (uniqueList schedLecturerIds).map (fun lid => (lid, notifyOk lid))
        else [])

/-- C9: venue-update fan-out is best-effort — the persisted venue and the
response are the same whatever the notification outcomes (failures are
swallowed, never surfaced), a valid request succeeds regardless of failures,
and each affected lecturer is attempted at most once (no retry), attempts
drawn from the venue's schedules. -/
theorem updateVenue_notify_best_effort (venue : Venue) (schedIds : List Nat)
    (body : VenueUpdateBody) (f g : Nat → Bool) :
    Except.map Prod.fst (updateVenue venue schedIds body f) =
      Except.map Prod.fst (updateVenue venue schedIds body g) ∧
    (body.status.all validateVenueStatus = true →
      (updateVenue venue schedIds body f).isOk = true) ∧
    (∀ v attempts, updateVenue venue schedIds body f = Except.ok (v, attempts) →
      (attempts.map Prod.fst).Nodup ∧ ∀ lid ∈ attempts.map Prod.fst, lid ∈ schedIds) := by
  obtain ⟨nm, bl, cp, fc, stOpt⟩ := body
  cases stOpt with
  | none =>
    refine ⟨rfl, fun _ => rfl, ?_⟩
    intro v attempts h
    injection h with h2
    have ha : attempts = [] := (congrArg Prod.snd h2).symm
    subst ha
    exact ⟨List.Pairwise.nil, fun lid hlid => absurd hlid (List.not_mem_nil lid)⟩
  | some st =>
    by_cases hv : validateVenueStatus st = true
    · have hcond : (!validateVenueStatus st) = false := by rw [hv]; rfl
      refine ⟨?_, fun _ => ?_, ?_⟩
      · simp only [updateVenue, hcond]
        rfl
      · simp only [updateVenue, hcond]
        rfl
      · intro v attempts h
        simp only [updateVenue, hcond] at h
        rw [if_neg (by decide)] at h
        injection h with h2
        have h3 := (congrArg Prod.snd h2).symm
        dsimp only at h3
        by_cases hc : (!(st == venue.status) && !schedIds.isEmpty) = true
        · rw [if_pos hc] at h3
          subst h3
          have hfst : ((uniqueList schedIds).map (fun lid => (lid, f lid))).map Prod.fst =
              uniqueList schedIds := by
            rw [List.map_map]
            exact List.map_id (uniqueList schedIds)
          rw [hfst]
          exact ⟨uniqueAux_nodup schedIds [],
            fun lid hlid => uniqueAux_mem schedIds [] lid hlid⟩
        · rw [if_neg hc] at h3
          subst h3
          exact ⟨List.Pairwise.nil, fun lid hlid => absurd hlid (List.not_mem_nil lid)⟩
    · have hv2 : validateVenueStatus st = false := by
        cases hb : validateVenueStatus st with
        | false => rfl
        | true => exact absurd hb hv
      have hcond : (!validateVenueStatus st) = true := by rw [hv2]; rfl
      refine ⟨?_, fun hval => ?_, ?_⟩
      · simp [updateVenue, hcond]
      · exact absurd (show validateVenueStatus st = true from hval) hv
      · intro v attempts h
        simp [updateVenue, hcond] at h

/-- Witness for C9: a status change with one schedule; the persisted venue is
identical whether the remote call fails everywhere or succeeds everywhere,
and a valid body yields a success response. -/
theorem updateVenue_notify_best_effort_witness :
    Except.map Prod.fst (updateVenue ⟨1, "A", "B", 10, [], "AVAILABLE"⟩ [10]
        ⟨none, none, none, none, some "MAINTENANCE"⟩ (fun _ => false)) =
      Except.map Prod.fst (updateVenue ⟨1, "A", "B", 10, [], "AVAILABLE"⟩ [10]
        ⟨none, none, none, none, some "MAINTENANCE"⟩ (fun _ => true)) ∧
    (updateVenue ⟨1, "A", "B", 10, [], "AVAILABLE"⟩ [10]
        ⟨none, none, none, none, some "MAINTENANCE"⟩ (fun _ => false)).isOk = true :=
  ⟨(updateVenue_notify_best_effort ⟨1, "A", "B", 10, [], "AVAILABLE"⟩ [10]
      ⟨none, none, none, none, some "MAINTENANCE"⟩ (fun _ => false) (fun _ => true)).1,
   (updateVenue_notify_best_effort ⟨1, "A", "B", 10, [], "AVAILABLE"⟩ [10]
      ⟨none, none, none, none, some "MAINTENANCE"⟩ (fun _ => false) (fun _ => true)).2.1
     (by decide)⟩

end SmartComms
